import Mathlib

/-!
# Verification of the `ui-events-winit` event reducer and tap counter

Shallow embedding of `src/ui-events-winit/src/lib.rs` (the `WindowEventReducer`
and `TapCounter`) and of the `UiEvent` union from `src/ui-events/src/ui_event.rs`.

Modelling conventions:
* Rust `u64` values are `Nat` with additions wrapped by `% 2^64` where the code
  adds (`wadd64`); `u8` counters wrap by `% 256` on increment, matching release
  semantics of the `count + 1` expression.
* Rust `f64` coordinates, pressures and scale factors are modelled as exact
  rationals `ℚ`.  The distance test `(dx*dx + dy*dy).sqrt() < 4.0` is embedded
  as `dx*dx + dy*dy < 16`, which is equivalent over the (exact) reals because
  both sides of the comparison are nonnegative (see `sqrt_lt_four_iff` below).
* The wall-clock read `Instant::now()` is passed in explicitly as a `now : Nat`
  parameter of `reduce`; `Duration::as_nanos() as u64` is the truncation
  `(now - first) % 2^64`, and `duration_since` of an earlier instant saturates
  to zero exactly like `Nat` subtraction.
* The `keyboard` and `pointer` submodules of the crate are not part of the
  sources; the few functions of theirs that `reduce` calls
  (`try_from_winit_button`, `from_winit_modifier_state`,
  `from_winit_keyboard_event`) are modelled from the specification and marked
  as such in their doc comments.
-/

namespace UIEvents

/-- `2^64`, the modulus of Rust `u64` arithmetic. -/
def U64 : Nat := 2 ^ 64

/-- Wrapping `u64` addition (release-mode semantics of `a + b` on `u64`). -/
def wadd64 (a b : Nat) : Nat := (a + b) % U64

/-- Saturating `u64` increment, `id.saturating_add(1)` in the `Touch` branch. -/
def satAdd1 (n : Nat) : Nat := min (n + 1) (U64 - 1)

/-- Pointer identifiers (`ui_events::pointer::PointerId`, a `u64` handle). -/
abbrev PointerId := Nat

/-- The sentinel id of the primary mouse pointer (`PointerId::PRIMARY`).
Touch contacts are offset by one so they never collide with it. -/
def PointerId.PRIMARY : PointerId := 0

/-- Modelled from the spec: `PointerId::new` wraps a nonzero raw id. -/
def PointerId.new (n : Nat) : Option PointerId :=
  if n = 0 then none else some n

/-- `ui_events::pointer::PointerType`. -/
inductive PointerType
  | Mouse
  | Touch
  | Pen
  | Unknown
deriving DecidableEq, Repr

/-- `ui_events::pointer::PointerInfo`: identity of a pointer source. -/
structure PointerInfo where
  pointer_id : Option PointerId
  persistent_device_id : Option Nat
  pointer_type : PointerType
deriving DecidableEq, Repr

/-- Modelled from the spec: the restricted semantic mouse-button set
(primary/secondary/auxiliary plus the two extension buttons). -/
inductive PointerButton
  | Primary
  | Secondary
  | Auxiliary
  | X1
  | X2
deriving DecidableEq, Repr

/-- Keyboard modifier state (shift/ctrl/alt/meta bitset). -/
structure Modifiers where
  shift : Bool := false
  ctrl : Bool := false
  alt : Bool := false
  meta : Bool := false
deriving DecidableEq, Repr

/-- A 2D point with exact-rational coordinates (models `kurbo::Point`). -/
structure Point where
  x : ℚ
  y : ℚ
deriving DecidableEq, Repr

/-- `ui_events::pointer::PointerState`: snapshot of one pointer at one time.
The `buttons` field is the set of currently held buttons, kept as a
duplicate-free list. -/
structure PointerState where
  time : Nat := 0
  position : Point := ⟨0, 0⟩
  modifiers : Modifiers := {}
  buttons : List PointerButton := []
  pressure : ℚ := 0
  count : Nat := 0
deriving DecidableEq, Repr

/-- Set-insert into the held-button list (`PointerButtons::insert`). -/
def insertButton (b : PointerButton) (l : List PointerButton) : List PointerButton :=
  if b ∈ l then l else l ++ [b]

/-- Set-remove from the held-button list (`PointerButtons::remove`). -/
def removeButton (b : PointerButton) (l : List PointerButton) : List PointerButton :=
  l.filter (fun y => y != b)

/-- `ui_events::pointer::PointerButtonUpdate`. -/
structure PointerButtonUpdate where
  pointer : PointerInfo
  button : Option PointerButton
  state : PointerState
deriving DecidableEq, Repr

/-- `ui_events::pointer::PointerUpdate` (a Move with auxiliary samples). -/
structure PointerUpdate where
  pointer : PointerInfo
  current : PointerState
  coalesced : List PointerState
  predicted : List PointerState
deriving DecidableEq, Repr

/-- `ui_events::ScrollDelta`. -/
inductive ScrollDelta
  | LineDelta (x y : ℚ)
  | PixelDelta (x y : ℚ)
deriving DecidableEq, Repr

/-- `ui_events::pointer::PointerScrollUpdate`. -/
structure PointerScrollUpdate where
  pointer : PointerInfo
  delta : ScrollDelta
  state : PointerState
deriving DecidableEq, Repr

/-- `ui_events::pointer::PointerEvent`. -/
inductive PointerEvent
  | Down (u : PointerButtonUpdate)
  | Up (u : PointerButtonUpdate)
  | Move (u : PointerUpdate)
  | Cancel (p : PointerInfo)
  | Enter (p : PointerInfo)
  | Leave (p : PointerInfo)
  | Scroll (u : PointerScrollUpdate)
deriving DecidableEq, Repr

/-- Keyboard events are opaque to this core: a raw payload plus the modifiers
the reducer attaches. -/
structure KeyboardEvent where
  raw : Nat
  modifiers : Modifiers
deriving DecidableEq, Repr

/-- `ui_events::UiEvent` from `src/ui-events/src/ui_event.rs`: the output
union with its explicit "not relevant" variant `Na`. -/
inductive UiEvent
  | Keyboard (k : KeyboardEvent)
  | Pointer (p : PointerEvent)
  | Na
deriving DecidableEq, Repr

/-- `TapState` (private to `TapCounter`): one active click cluster. -/
structure TapState where
  pointer_id : Option PointerId
  down_time : Nat
  up_time : Nat
  count : Nat
  x : ℚ
  y : ℚ
deriving DecidableEq, Repr

/-- `TapCounter`: the ordered cluster list. -/
structure TapCounter where
  taps : List TapState := []
deriving DecidableEq, Repr

/-- The Down-matching predicate of `TapCounter::attach_count` (lines 260-265):
spatially within 4.0 logical units (squared comparison, see module comment;
the `abs` calls of the source are dropped because the differences are only
squared) and temporally within 500ms of the cluster's last release, with the
`u64` addition wrapping. -/
def tapMatchB (c : TapState) (px py : ℚ) (t : Nat) : Bool :=
  let dx := c.x - px
  let dy := c.y - py
  decide (dx * dx + dy * dy < 16) && decide (t < wadd64 c.up_time 500000000)

/-- The `iter().position(..)` + indexed update of the Down branch of
`attach_count`, as one first-match traversal: returns the new count together
with the updated cluster list, or `none` when no cluster matches. -/
def downScan (pid : Option PointerId) (px py : ℚ) (t : Nat) :
    List TapState → Option (Nat × List TapState)
  | [] => none
  | c :: rest =>
    if tapMatchB c px py t then
      let count := (c.count + 1) % 256
      some (count, ⟨pid, t, t, count, px, py⟩ :: rest)
    else
      match downScan pid px py t rest with
      | some (cnt, rest') => some (cnt, c :: rest')
      | none => none

/-- The `iter().position(..)` + `up_time` update of the Up branch of
`attach_count`: finds the first cluster with the event's pointer id, sets its
`up_time`, and returns its (unchanged) count. -/
def upScan (pid : Option PointerId) (t : Nat) :
    List TapState → Option (Nat × List TapState)
  | [] => none
  | c :: rest =>
    if c.pointer_id = pid then
      some (c.count, { c with up_time := t } :: rest)
    else
      match upScan pid t rest with
      | some (cnt, rest') => some (cnt, c :: rest')
      | none => none

/-- `TapCounter::clear_expired` (lines 376-382): retain clusters that are
still pressed or whose release is within the 500ms grace window of `t`. -/
def clearExpired (t : Nat) (taps : List TapState) : List TapState :=
  taps.filter fun c =>
    c.down_time == c.up_time || decide (t < wadd64 c.up_time 500000000)

/-- The Move-branch search predicate of `attach_count` (lines 327-339):
same pointer id and a still-open press session. -/
def movePred (pid : Option PointerId) (c : TapState) : Bool :=
  c.pointer_id == pid && c.down_time == c.up_time

/-- `TapCounter::attach_count` (lines 256-370), as explicit state passing:
returns the count-enhanced event together with the updated counter. -/
def TapCounter.attach_count (tc : TapCounter) : PointerEvent → PointerEvent × TapCounter
  | .Down u =>
    let t := u.state.time
    let px := u.state.position.x
    let py := u.state.position.y
    let r :=
      match downScan u.pointer.pointer_id px py t tc.taps with
      | some (count, taps') =>
        (PointerEvent.Down { u with state := { u.state with count := count } }, taps')
      | none =>
        (PointerEvent.Down { u with state := { u.state with count := 1 } },
         tc.taps ++ [(⟨u.pointer.pointer_id, t, t, 1, px, py⟩ : TapState)])
    (r.1, TapCounter.mk (clearExpired t r.2))
  | .Up u =>
    match upScan u.pointer.pointer_id u.state.time tc.taps with
    | some (count, taps') =>
      (PointerEvent.Up { u with state := { u.state with count := count } }, TapCounter.mk taps')
    | none => (PointerEvent.Up u, tc)
  | .Move u =>
    match tc.taps.find? (movePred u.pointer.pointer_id) with
    | some c =>
      (PointerEvent.Move { u with
          current := { u.current with count := c.count },
          coalesced := u.coalesced.map (fun s => { s with count := c.count }),
          predicted := u.predicted.map (fun s => { s with count := c.count }) },
       tc)
    | none => (PointerEvent.Move u, tc)
  | .Cancel p =>
    (PointerEvent.Cancel p, TapCounter.mk (tc.taps.filter (fun c => c.pointer_id != p.pointer_id)))
  | .Leave p =>
    (PointerEvent.Leave p, TapCounter.mk (tc.taps.filter (fun c => c.pointer_id != p.pointer_id)))
  | .Enter p => (PointerEvent.Enter p, tc)
  | .Scroll u => (PointerEvent.Scroll u, tc)

/-- The winit `TouchPhase`. -/
inductive TouchPhase
  | Started
  | Moved
  | Ended
  | Cancelled
deriving DecidableEq, Repr

/-- The winit `Force`; the extra fields of `Calibrated` are never read by
the code and are omitted. -/
inductive Force
  | Calibrated (force : ℚ)
  | Normalized (q : ℚ)
deriving DecidableEq, Repr

/-- The winit `MouseButton`. -/
inductive MouseButton
  | Left
  | Right
  | Middle
  | Back
  | Forward
  | Other (n : Nat)
deriving DecidableEq, Repr

/-- The subset of winit `WindowEvent` the reducer reacts to; every other
kind is the catch-all `Other`.  Positions and wheel deltas are the raw
(physical) values. -/
inductive WindowEvent
  | ModifiersChanged (m : Modifiers)
  | KeyboardInput (raw : Nat)
  | CursorEntered
  | CursorLeft
  | CursorMoved (px py : ℚ)
  | MouseInput (pressed : Bool) (button : MouseButton)
  | MouseWheel (delta : ScrollDelta)
  | Touch (phase : TouchPhase) (id : Nat) (px py : ℚ) (force : Option Force)
  | ScaleFactorChanged (s : ℚ)
  | Other
deriving DecidableEq, Repr

/-- Modelled from the spec: `pointer::try_from_winit_button` (the module
`src/ui-events-winit/src/pointer.rs` is not among the sources) maps platform
buttons into the restricted semantic set and yields `none` outside it. -/
def try_from_winit_button : MouseButton → Option PointerButton
  | .Left => some .Primary
  | .Right => some .Secondary
  | .Middle => some .Auxiliary
  | .Back => some .X1
  | .Forward => some .X2
  | .Other _ => none

/-- Modelled from the spec: `keyboard::from_winit_modifier_state` converts the
winit modifier bitset to the ui-events one; with both sides modelled by the
same `Modifiers` structure the conversion is the identity. -/
def from_winit_modifier_state (m : Modifiers) : Modifiers := m

/-- Modelled from the spec: `keyboard::from_winit_keyboard_event` clones the
raw keyboard event and attaches the current modifiers. -/
def from_winit_keyboard_event (raw : Nat) (m : Modifiers) : KeyboardEvent :=
  ⟨raw, m⟩

/-- The `PRIMARY_MOUSE` constant of `WindowEventReducer::reduce`. -/
def PRIMARY_MOUSE : PointerInfo :=
  ⟨some PointerId.PRIMARY, none, PointerType.Mouse⟩

/-- The touch-pressure derivation of the `Touch` branch (lines 185-193). -/
def touchPressure (phase : TouchPhase) (force : Option Force) : ℚ :=
  if phase = .Ended ∨ phase = .Cancelled then 0
  else
    match force with
    | some (.Calibrated f) => f * (1 / 2)
    | some (.Normalized q) => q
    | none => 1 / 2

/-- `WindowEventReducer` (lines 58-70): all per-window mutable state. -/
structure WindowEventReducer where
  modifiers : Modifiers := {}
  primary_state : PointerState := {}
  counter : TapCounter := {}
  first_instant : Option Nat := none
  scale_factor : Option ℚ := none
deriving DecidableEq, Repr

/-- `WindowEventReducer::reduce` (lines 75-223).  `now` is the value of
`Instant::now()` at the call, in nanoseconds on an arbitrary fixed scale;
the result pairs the emitted `Option<UiEvent>` with the updated reducer. -/
def reduce (r : WindowEventReducer) (now : Nat) (ev : WindowEvent) :
    Option UiEvent × WindowEventReducer :=
  let first := r.first_instant.getD now
  let time := (now - first) % U64
  let ps := { r.primary_state with time := time }
  let r1 : WindowEventReducer :=
    { r with primary_state := ps, first_instant := some first }
  match ev with
  | .ModifiersChanged m =>
    (none, { r1 with
      modifiers := m,
      primary_state := { ps with modifiers := from_winit_modifier_state m } })
  | .KeyboardInput raw =>
    (some (.Keyboard (from_winit_keyboard_event raw r1.modifiers)), r1)
  | .CursorEntered =>
    (some (.Pointer (.Enter PRIMARY_MOUSE)), r1)
  | .CursorLeft =>
    (some (.Pointer (.Leave PRIMARY_MOUSE)), r1)
  | .CursorMoved px py =>
    let sf := r1.scale_factor.getD 1
    let ps := { ps with position := ⟨px / sf, py / sf⟩ }
    let p := r1.counter.attach_count
      (.Move ⟨PRIMARY_MOUSE, ps, [], []⟩)
    (some (.Pointer p.1), { r1 with primary_state := ps, counter := p.2 })
  | .MouseInput pressed mb =>
    let b := try_from_winit_button mb
    let ps :=
      { ps with buttons :=
          match b, pressed with
          | some pb, true => insertButton pb ps.buttons
          | some pb, false => removeButton pb ps.buttons
          | none, _ => ps.buttons }
    let pe := if pressed then PointerEvent.Down ⟨PRIMARY_MOUSE, b, ps⟩
              else PointerEvent.Up ⟨PRIMARY_MOUSE, b, ps⟩
    let p := r1.counter.attach_count pe
    (some (.Pointer p.1), { r1 with primary_state := ps, counter := p.2 })
  | .MouseWheel delta =>
    let sf := r1.scale_factor.getD 1
    let d := match delta with
      | .LineDelta x y => ScrollDelta.LineDelta x y
      | .PixelDelta x y => ScrollDelta.PixelDelta (x / sf) (y / sf)
    (some (.Pointer (.Scroll ⟨PRIMARY_MOUSE, d, ps⟩)), r1)
  | .Touch phase id px py force =>
    let pointer : PointerInfo := ⟨PointerId.new (satAdd1 id), none, .Touch⟩
    let sf := r1.scale_factor.getD 1
    let st : PointerState :=
      { time := time, position := ⟨px / sf, py / sf⟩,
        modifiers := ps.modifiers, pressure := touchPressure phase force }
    let pe := match phase with
      | .Started => PointerEvent.Down ⟨pointer, none, st⟩
      | .Moved => PointerEvent.Move ⟨pointer, st, [], []⟩
      | .Cancelled => PointerEvent.Cancel pointer
      | .Ended => PointerEvent.Up ⟨pointer, none, st⟩
    let p := r1.counter.attach_count pe
    (some (.Pointer p.1), { r1 with counter := p.2 })
  | .ScaleFactorChanged s =>
    (none, { r1 with scale_factor := some s })
  | .Other => (none, r1)

/-! ## Derived notions used by the specification claims -/

/-- The spec's Down-matching condition, in exact arithmetic: Euclidean
distance from the cluster's stored `(x, y)` to the event position strictly
below `4.0` (equivalently, squared distance below `16`, see
`sqrt_lt_four_iff`), and `up_time + 500_000_000 > t` without wrap. -/
def tapHit (c : TapState) (px py : ℚ) (t : Nat) : Prop :=
  (c.x - px) * (c.x - px) + (c.y - py) * (c.y - py) < 16 ∧
    t < c.up_time + 500000000

/-- A cluster is live (pressed and not yet released) for a pointer id. -/
def livePred (pid : Option PointerId) (c : TapState) : Bool :=
  c.pointer_id == pid && c.down_time == c.up_time

/-- Number of live clusters carrying a given pointer id. -/
def liveCount (pid : Option PointerId) (tc : TapCounter) : Nat :=
  tc.taps.countP (livePred pid)

/-- The pointer id an event carries. -/
def eventPointerId : PointerEvent → Option PointerId
  | .Down u => u.pointer.pointer_id
  | .Up u => u.pointer.pointer_id
  | .Move u => u.pointer.pointer_id
  | .Cancel p => p.pointer_id
  | .Enter p => p.pointer_id
  | .Leave p => p.pointer_id
  | .Scroll u => u.pointer.pointer_id

/-- All pointer-state snapshots contained in a pointer event. -/
def pstatesOf : PointerEvent → List PointerState
  | .Down u => [u.state]
  | .Up u => [u.state]
  | .Move u => u.current :: (u.coalesced ++ u.predicted)
  | .Cancel _ => []
  | .Enter _ => []
  | .Leave _ => []
  | .Scroll u => [u.state]

/-- All pointer-state snapshots contained in an emitted event. -/
def statesOf : Option UiEvent → List PointerState
  | some (.Pointer p) => pstatesOf p
  | _ => []

/-- The `time` stamps of the states carried by one emitted event. -/
def stepTimes (o : Option UiEvent) : List Nat :=
  (statesOf o).map (fun s => s.time)

/-- Extract, from an emitted event, whether it is a pointer Down (`true`) or
Up (`false`) and which button it carries; `none` for any other shape. -/
def downOrUpButton : Option UiEvent → Option (Bool × Option PointerButton)
  | some (.Pointer (.Down u)) => some (true, u.button)
  | some (.Pointer (.Up u)) => some (false, u.button)
  | _ => none

/-- Feed a timed event sequence to one reducer instance; collect the outputs. -/
def runEmits : WindowEventReducer → List (Nat × WindowEvent) → List (Option UiEvent)
  | _, [] => []
  | r, (n, e) :: rest => (reduce r n e).1 :: runEmits (reduce r n e).2 rest

/-- All `time` stamps of all pointer states emitted over a run, in order. -/
def emitTimes : WindowEventReducer → List (Nat × WindowEvent) → List Nat
  | _, [] => []
  | r, (n, e) :: rest => stepTimes (reduce r n e).1 ++ emitTimes (reduce r n e).2 rest

/-- The stored primary pointer state's `time` after each event of a run. -/
def primaryTimes : WindowEventReducer → List (Nat × WindowEvent) → List Nat
  | _, [] => []
  | r, (n, e) :: rest =>
    (reduce r n e).2.primary_state.time :: primaryTimes (reduce r n e).2 rest

/-! ## Helper lemmas -/

/-- Justification of the squared-distance embedding: for a nonnegative squared
distance, the source's `sqrt d < 4.0` is exactly `d < 16` over the reals. -/
theorem sqrt_lt_four_iff (q : ℚ) : Real.sqrt (q : ℝ) < 4 ↔ (q : ℝ) < 16 := by
  rw [show (16 : ℝ) = 4 ^ 2 by norm_num]
  exact Real.sqrt_lt' (by norm_num)

/-- When the cluster's `up_time + 500_000_000` does not wrap, the code's
matching predicate coincides with the spec's exact-arithmetic condition. -/
theorem tapMatchB_iff (c : TapState) (px py : ℚ) (t : Nat)
    (hb : c.up_time + 500000000 < U64) :
    tapMatchB c px py t = true ↔ tapHit c px py t := by
  simp [tapMatchB, tapHit, wadd64, Nat.mod_eq_of_lt hb]

/-- One unfolding step of `downScan` for the no-result case. -/
theorem downScan_cons_none (pid : Option PointerId) (px py : ℚ) (t : Nat)
    (a : TapState) (l : List TapState) :
    downScan pid px py t (a :: l) = none ↔
      tapMatchB a px py t = false ∧ downScan pid px py t l = none := by
  by_cases ha : tapMatchB a px py t <;>
    cases hrec : downScan pid px py t l <;>
      simp [downScan, ha, hrec]

/-- `downScan` returns `none` exactly when no cluster matches. -/
theorem downScan_eq_none_iff (pid : Option PointerId) (px py : ℚ) (t : Nat)
    (l : List TapState) :
    downScan pid px py t l = none ↔ ∀ c ∈ l, ¬ tapMatchB c px py t = true := by
  induction l with
  | nil => simp [downScan]
  | cons a l ih =>
    rw [downScan_cons_none, ih]
    simp

/-- `downScan` at the first matching index: the match found by
`iter().position` is the first cluster, in insertion order, satisfying the
predicate, and the returned list is the input with exactly that cluster
overwritten. -/
theorem downScan_first (pid : Option PointerId) (px py : ℚ) (t : Nat)
    (l : List TapState) (i : Nat) (c : TapState)
    (hi : l[i]? = some c) (hhit : tapMatchB c px py t = true)
    (hfirst : ∀ j, j < i → ∀ d, l[j]? = some d → ¬ tapMatchB d px py t = true) :
    downScan pid px py t l =
      some ((c.count + 1) % 256,
        l.set i ⟨pid, t, t, (c.count + 1) % 256, px, py⟩) := by
  induction l generalizing i with
  | nil => simp at hi
  | cons a l ih =>
    cases i with
    | zero =>
      simp only [List.getElem?_cons_zero, Option.some.injEq] at hi
      subst hi
      simp [downScan, hhit]
    | succ n =>
      have ha : ¬ tapMatchB a px py t = true := by
        exact hfirst 0 (Nat.succ_pos n) a (by simp)
      have hrec := ih n (by simpa using hi)
        (fun j hj d hd => hfirst (j + 1) (by omega) d (by simpa using hd))
      simp [downScan, ha, hrec]

/-- Membership in `clearExpired`. -/
theorem mem_clearExpired_iff (t : Nat) (l : List TapState) (c : TapState) :
    c ∈ clearExpired t l ↔
      c ∈ l ∧ (c.down_time = c.up_time ∨ t < wadd64 c.up_time 500000000) := by
  simp [clearExpired, List.mem_filter]

/-- A still-pressed cluster is never dropped by `clearExpired`. -/
theorem live_mem_clearExpired (t : Nat) (l : List TapState) (c : TapState)
    (hc : c ∈ l) (hlive : c.down_time = c.up_time) : c ∈ clearExpired t l :=
  (mem_clearExpired_iff t l c).2 ⟨hc, Or.inl hlive⟩

/-- The wrapped sum is bounded by the exact sum. -/
theorem wadd64_le (a b : Nat) : wadd64 a b ≤ a + b :=
  Nat.mod_le _ _

/-- `attach_count` on a Down that matches a cluster. -/
theorem attach_count_down_some (tc : TapCounter) (u : PointerButtonUpdate)
    (cnt : Nat) (l' : List TapState)
    (h : downScan u.pointer.pointer_id u.state.position.x u.state.position.y
          u.state.time tc.taps = some (cnt, l')) :
    tc.attach_count (.Down u) =
      (.Down { u with state := { u.state with count := cnt } },
       TapCounter.mk (clearExpired u.state.time l')) := by
  simp only [TapCounter.attach_count, h]

/-- `attach_count` on a Down that matches no cluster. -/
theorem attach_count_down_none (tc : TapCounter) (u : PointerButtonUpdate)
    (h : downScan u.pointer.pointer_id u.state.position.x u.state.position.y
          u.state.time tc.taps = none) :
    tc.attach_count (.Down u) =
      (.Down { u with state := { u.state with count := 1 } },
       TapCounter.mk (clearExpired u.state.time (tc.taps ++
         [⟨u.pointer.pointer_id, u.state.time, u.state.time, 1,
           u.state.position.x, u.state.position.y⟩]))) := by
  simp only [TapCounter.attach_count, h]

/-- `attach_count` on an Up whose pointer id has a cluster. -/
theorem attach_count_up_some (tc : TapCounter) (u : PointerButtonUpdate)
    (cnt : Nat) (l' : List TapState)
    (h : upScan u.pointer.pointer_id u.state.time tc.taps = some (cnt, l')) :
    tc.attach_count (.Up u) =
      (.Up { u with state := { u.state with count := cnt } },
       TapCounter.mk l') := by
  simp only [TapCounter.attach_count, h]

/-- `attach_count` on an Up with no cluster for its pointer id. -/
theorem attach_count_up_none (tc : TapCounter) (u : PointerButtonUpdate)
    (h : upScan u.pointer.pointer_id u.state.time tc.taps = none) :
    tc.attach_count (.Up u) = (.Up u, tc) := by
  simp only [TapCounter.attach_count, h]

/-- `attach_count` on a Move with an open press session for its pointer. -/
theorem attach_count_move_some (tc : TapCounter) (u : PointerUpdate)
    (c : TapState)
    (h : tc.taps.find? (movePred u.pointer.pointer_id) = some c) :
    tc.attach_count (.Move u) =
      (.Move { u with
          current := { u.current with count := c.count },
          coalesced := u.coalesced.map (fun s => { s with count := c.count }),
          predicted := u.predicted.map (fun s => { s with count := c.count }) },
       tc) := by
  simp only [TapCounter.attach_count, h]

/-- `attach_count` on a Move with no open press session for its pointer. -/
theorem attach_count_move_none (tc : TapCounter) (u : PointerUpdate)
    (h : tc.taps.find? (movePred u.pointer.pointer_id) = none) :
    tc.attach_count (.Move u) = (.Move u, tc) := by
  simp only [TapCounter.attach_count, h]

/-! ## C10: `reduce` never emits the explicit `Na` variant -/

/-- C10: for every raw window event and every reducer state, `reduce` never
returns `some UiEvent.Na`; irrelevance is always signalled by `none`. -/
theorem claim_C10_no_Na (r : WindowEventReducer) (now : Nat) (ev : WindowEvent) :
    (reduce r now ev).1 ≠ some UiEvent.Na := by
  cases ev <;> (dsimp only [reduce]) <;> simp

/-! ## C2: expiry after every Down -/

/-- C2: immediately after a Down is handled, no stored cluster is both fully
released (`down_time ≠ up_time`) and idle past the grace window
(`up_time + 500_000_000 ≤ t`); and `clear_expired` never removes a cluster
with `down_time = up_time`. -/
theorem claim_C2_expiry (tc : TapCounter) (u : PointerButtonUpdate) :
    (∀ c ∈ (tc.attach_count (.Down u)).2.taps,
        c.down_time ≠ c.up_time → u.state.time < c.up_time + 500000000) ∧
    (∀ (t : Nat) (l : List TapState) (c : TapState),
        c ∈ l → c.down_time = c.up_time → c ∈ clearExpired t l) := by
  refine ⟨?_, fun t l c hc hl => live_mem_clearExpired t l c hc hl⟩
  intro c hc hne
  have hmem : c.down_time = c.up_time ∨ u.state.time < wadd64 c.up_time 500000000 := by
    cases hscan : downScan u.pointer.pointer_id u.state.position.x
        u.state.position.y u.state.time tc.taps with
    | some p =>
      rw [attach_count_down_some tc u p.1 p.2 hscan] at hc
      exact ((mem_clearExpired_iff _ _ _).1 hc).2
    | none =>
      rw [attach_count_down_none tc u hscan] at hc
      exact ((mem_clearExpired_iff _ _ _).1 hc).2
  rcases hmem with h | h
  · exact absurd h hne
  · exact lt_of_lt_of_le h (wadd64_le _ _)

/-! ## C5: Move events inherit the open press session's count -/

/-- C5: if some stored cluster has the Move's pointer id and an open press
session (`down_time = up_time`), the first such cluster is found, and the
returned Move carries its count on the current state and on every coalesced
and predicted entry; with no such cluster the Move is returned untouched
(so an input count of 0 stays 0). -/
theorem claim_C5_move_count (tc : TapCounter) (u : PointerUpdate) :
    (∀ c, tc.taps.find? (movePred u.pointer.pointer_id) = some c →
       c.pointer_id = u.pointer.pointer_id ∧ c.down_time = c.up_time ∧
       tc.attach_count (.Move u) =
         (.Move { u with
             current := { u.current with count := c.count },
             coalesced := u.coalesced.map (fun s => { s with count := c.count }),
             predicted := u.predicted.map (fun s => { s with count := c.count }) },
          tc)) ∧
    ((∀ c ∈ tc.taps, ¬ (c.pointer_id = u.pointer.pointer_id ∧ c.down_time = c.up_time)) →
       tc.attach_count (.Move u) = (.Move u, tc)) := by
  constructor
  · intro c hc
    have hp : movePred u.pointer.pointer_id c = true := List.find?_some hc
    simp only [movePred, Bool.and_eq_true, beq_iff_eq] at hp
    exact ⟨hp.1, hp.2, attach_count_move_some tc u c hc⟩
  · intro h
    refine attach_count_move_none tc u (List.find?_eq_none.2 fun c hc => ?_)
    have := h c hc
    simp only [movePred, Bool.and_eq_true, beq_iff_eq]
    tauto

/-- `attach_count` only rewrites the `count` field of the states an event
carries: any state projection unaffected by `count` is preserved. -/
theorem attach_count_preserves {α : Type} (f : PointerState → α)
    (hf : ∀ s n, f { s with count := n } = f s)
    (tc : TapCounter) (e : PointerEvent) (T : α)
    (h : ∀ s ∈ pstatesOf e, f s = T) :
    ∀ s ∈ pstatesOf (tc.attach_count e).1, f s = T := by
  cases e with
  | Down u =>
    cases hscan : downScan u.pointer.pointer_id u.state.position.x
        u.state.position.y u.state.time tc.taps with
    | some p =>
      rw [attach_count_down_some tc u p.1 p.2 hscan]
      intro s hs
      simp only [pstatesOf, List.mem_singleton] at hs
      subst hs
      rw [hf]
      exact h u.state (by simp [pstatesOf])
    | none =>
      rw [attach_count_down_none tc u hscan]
      intro s hs
      simp only [pstatesOf, List.mem_singleton] at hs
      subst hs
      rw [hf]
      exact h u.state (by simp [pstatesOf])
  | Up u =>
    cases hscan : upScan u.pointer.pointer_id u.state.time tc.taps with
    | some p =>
      rw [attach_count_up_some tc u p.1 p.2 hscan]
      intro s hs
      simp only [pstatesOf, List.mem_singleton] at hs
      subst hs
      rw [hf]
      exact h u.state (by simp [pstatesOf])
    | none =>
      rw [attach_count_up_none tc u hscan]
      exact h
  | Move u =>
    cases hfind : tc.taps.find? (movePred u.pointer.pointer_id) with
    | some c =>
      rw [attach_count_move_some tc u c hfind]
      intro s hs
      simp only [pstatesOf, List.mem_cons, List.mem_append, List.mem_map] at hs
      rcases hs with hs | ⟨a, ha, hs⟩ | ⟨a, ha, hs⟩
      · subst hs
        rw [hf]
        exact h u.current (by simp [pstatesOf])
      · subst hs
        rw [hf]
        exact h a (by simp [pstatesOf, ha])
      · subst hs
        rw [hf]
        exact h a (by simp [pstatesOf, ha])
    | none =>
      rw [attach_count_move_none tc u hfind]
      exact h
  | Cancel p => simp [TapCounter.attach_count, pstatesOf]
  | Enter p => simp [TapCounter.attach_count, pstatesOf]
  | Leave p => simp [TapCounter.attach_count, pstatesOf]
  | Scroll u => simpa [TapCounter.attach_count, pstatesOf] using h

/-! ## C6: touch pressure derivation -/

/-- C6: every pointer state emitted for a touch raw event has pressure `0`
when the phase is Ended or Cancelled, `f * 0.5` for a calibrated force `f`,
`q` for a pre-normalized force `q`, and `0.5` with no force data. -/
theorem claim_C6_touch_pressure (r : WindowEventReducer) (now : Nat)
    (phase : TouchPhase) (id : Nat) (px py : ℚ) (force : Option Force) :
    ∀ s ∈ statesOf (reduce r now (.Touch phase id px py force)).1,
      s.pressure =
        if phase = .Ended ∨ phase = .Cancelled then 0
        else
          match force with
          | some (.Calibrated f) => f * (1 / 2)
          | some (.Normalized q) => q
          | none => 1 / 2 := by
  cases phase with
  | Started =>
    dsimp only [reduce, statesOf]
    refine attach_count_preserves (fun s => s.pressure) (fun s n => rfl) _ _ _ ?_
    intro s hs
    simp only [pstatesOf, List.mem_singleton] at hs
    subst hs
    simp [touchPressure]
  | Moved =>
    dsimp only [reduce, statesOf]
    refine attach_count_preserves (fun s => s.pressure) (fun s n => rfl) _ _ _ ?_
    intro s hs
    simp only [pstatesOf, List.append_nil, List.mem_singleton, List.mem_cons,
      List.not_mem_nil, or_false] at hs
    subst hs
    simp [touchPressure]
  | Ended =>
    dsimp only [reduce, statesOf]
    refine attach_count_preserves (fun s => s.pressure) (fun s n => rfl) _ _ _ ?_
    intro s hs
    simp only [pstatesOf, List.mem_singleton] at hs
    subst hs
    simp [touchPressure]
  | Cancelled =>
    dsimp only [reduce, statesOf]
    refine attach_count_preserves (fun s => s.pressure) (fun s n => rfl) _ _ _ ?_
    simp [pstatesOf]

/-! ## C9: button mapping and the held-button set -/

/-- Membership after a set-insert of a button. -/
theorem mem_insertButton (x b : PointerButton) (l : List PointerButton) :
    x ∈ insertButton b l ↔ x = b ∨ x ∈ l := by
  by_cases hb : b ∈ l
  · simp only [insertButton, if_pos hb]
    constructor
    · exact Or.inr
    · rintro (rfl | h)
      · exact hb
      · exact h
  · simp [insertButton, hb, or_comm]

/-- Membership after a set-remove of a button. -/
theorem mem_removeButton (x b : PointerButton) (l : List PointerButton) :
    x ∈ removeButton b l ↔ x ∈ l ∧ x ≠ b := by
  simp [removeButton, List.mem_filter]

/-- `attach_count` keeps a Down event a Down with the same button. -/
theorem downOrUpButton_attach_down (tc : TapCounter) (u : PointerButtonUpdate) :
    downOrUpButton (some (.Pointer (tc.attach_count (.Down u)).1)) =
      some (true, u.button) := by
  cases hscan : downScan u.pointer.pointer_id u.state.position.x
      u.state.position.y u.state.time tc.taps with
  | some p =>
    rw [attach_count_down_some tc u p.1 p.2 hscan]
    rfl
  | none =>
    rw [attach_count_down_none tc u hscan]
    rfl

/-- `attach_count` keeps an Up event an Up with the same button. -/
theorem downOrUpButton_attach_up (tc : TapCounter) (u : PointerButtonUpdate) :
    downOrUpButton (some (.Pointer (tc.attach_count (.Up u)).1)) =
      some (false, u.button) := by
  cases hscan : upScan u.pointer.pointer_id u.state.time tc.taps with
  | some p =>
    rw [attach_count_up_some tc u p.1 p.2 hscan]
    rfl
  | none =>
    rw [attach_count_up_none tc u hscan]
    rfl

/-- C9: a mouse-button raw event always emits a pointer Down (press) or Up
(release) carrying exactly the mapped button (`none` outside the semantic
set), and the held-button set gains the mapped button on press, loses it on
release, and is untouched when the button does not map. -/
theorem claim_C9_button_mapping (r : WindowEventReducer) (now : Nat)
    (mb : MouseButton) (pressed : Bool) :
    downOrUpButton (reduce r now (.MouseInput pressed mb)).1 =
        some (pressed, try_from_winit_button mb) ∧
    (∀ x : PointerButton,
      x ∈ (reduce r now (.MouseInput pressed mb)).2.primary_state.buttons ↔
        match try_from_winit_button mb, pressed with
        | none, _ => x ∈ r.primary_state.buttons
        | some pb, true => x = pb ∨ x ∈ r.primary_state.buttons
        | some pb, false => x ∈ r.primary_state.buttons ∧ x ≠ pb) := by
  cases hb : try_from_winit_button mb with
  | none =>
    cases pressed with
    | true =>
      refine ⟨?_, ?_⟩
      · dsimp only [reduce]
        rw [hb]
        simpa using downOrUpButton_attach_down _ _
      · intro x
        dsimp only [reduce]
        rw [hb]
    | false =>
      refine ⟨?_, ?_⟩
      · dsimp only [reduce]
        rw [hb]
        simpa using downOrUpButton_attach_up _ _
      · intro x
        dsimp only [reduce]
        rw [hb]
  | some pb =>
    cases pressed with
    | true =>
      refine ⟨?_, ?_⟩
      · dsimp only [reduce]
        rw [hb]
        simpa using downOrUpButton_attach_down _ _
      · intro x
        dsimp only [reduce]
        rw [hb]
        simpa using mem_insertButton x pb r.primary_state.buttons
    | false =>
      refine ⟨?_, ?_⟩
      · dsimp only [reduce]
        rw [hb]
        simpa using downOrUpButton_attach_up _ _
      · intro x
        dsimp only [reduce]
        rw [hb]
        simpa using mem_removeButton x pb r.primary_state.buttons

/-! ## C1: the Down branch of the tap counter -/

/-- C1: on a Down event, if some stored cluster is within 4.0 units and its
`up_time + 500_000_000` exceeds the event time, the first such cluster (in
insertion order) has its count incremented by one and its `pointer_id`,
`down_time`, `up_time`, `x`, `y` overwritten with the event's values, and the
returned Down carries the incremented count; if no cluster matches, a new
cluster with count 1 and `down_time = up_time =` event time is appended and
the returned Down carries count 1.  (Hypotheses: stored `up_time`s do not
overflow the `u64` addition, and in the match case the `u8` count increment
does not overflow; claim C7 records that the latter can in fact overflow.) -/
theorem claim_C1_down_cluster (tc : TapCounter) (u : PointerButtonUpdate)
    (hb : ∀ c ∈ tc.taps, c.up_time + 500000000 < U64) :
    (∀ (i : Nat) (c : TapState), tc.taps[i]? = some c →
       tapHit c u.state.position.x u.state.position.y u.state.time →
       (∀ j, j < i → ∀ d, tc.taps[j]? = some d →
          ¬ tapHit d u.state.position.x u.state.position.y u.state.time) →
       c.count + 1 < 256 →
       (tc.attach_count (.Down u)).1 =
           .Down { u with state := { u.state with count := c.count + 1 } } ∧
       (tc.attach_count (.Down u)).2.taps =
           clearExpired u.state.time (tc.taps.set i
             ⟨u.pointer.pointer_id, u.state.time, u.state.time, c.count + 1,
              u.state.position.x, u.state.position.y⟩) ∧
       (⟨u.pointer.pointer_id, u.state.time, u.state.time, c.count + 1,
         u.state.position.x, u.state.position.y⟩ : TapState) ∈
           (tc.attach_count (.Down u)).2.taps) ∧
    ((∀ c ∈ tc.taps, ¬ tapHit c u.state.position.x u.state.position.y u.state.time) →
       (tc.attach_count (.Down u)).1 =
           .Down { u with state := { u.state with count := 1 } } ∧
       (tc.attach_count (.Down u)).2.taps =
           clearExpired u.state.time (tc.taps ++
             [⟨u.pointer.pointer_id, u.state.time, u.state.time, 1,
               u.state.position.x, u.state.position.y⟩]) ∧
       (⟨u.pointer.pointer_id, u.state.time, u.state.time, 1,
         u.state.position.x, u.state.position.y⟩ : TapState) ∈
           (tc.attach_count (.Down u)).2.taps) := by
  constructor
  · intro i c hi hhit hfirst hcnt
    have hlen : i < tc.taps.length := (List.getElem?_eq_some_iff.1 hi).1
    have hcmem : c ∈ tc.taps := by
      rcases List.getElem?_eq_some_iff.1 hi with ⟨h, rfl⟩
      exact List.getElem_mem h
    have hmB : tapMatchB c u.state.position.x u.state.position.y u.state.time = true :=
      (tapMatchB_iff c _ _ _ (hb c hcmem)).2 hhit
    have hfirstB : ∀ j, j < i → ∀ d, tc.taps[j]? = some d →
        ¬ tapMatchB d u.state.position.x u.state.position.y u.state.time = true := by
      intro j hj d hd hBd
      have hdmem : d ∈ tc.taps := by
        rcases List.getElem?_eq_some_iff.1 hd with ⟨h, rfl⟩
        exact List.getElem_mem h
      exact hfirst j hj d hd ((tapMatchB_iff d _ _ _ (hb d hdmem)).1 hBd)
    have hscan := downScan_first u.pointer.pointer_id u.state.position.x
      u.state.position.y u.state.time tc.taps i c hi hmB hfirstB
    rw [Nat.mod_eq_of_lt hcnt] at hscan
    have heq := attach_count_down_some tc u (c.count + 1) _ hscan
    refine ⟨by rw [heq], by rw [heq], ?_⟩
    rw [heq]
    exact live_mem_clearExpired _ _ _ (List.mem_set tc.taps i hlen _) rfl
  · intro h
    have hscan : downScan u.pointer.pointer_id u.state.position.x
        u.state.position.y u.state.time tc.taps = none := by
      refine (downScan_eq_none_iff _ _ _ _ _).2 fun c hc hBc => ?_
      exact h c hc ((tapMatchB_iff c _ _ _ (hb c hc)).1 hBc)
    have heq := attach_count_down_none tc u hscan
    refine ⟨by rw [heq], by rw [heq], ?_⟩
    rw [heq]
    exact live_mem_clearExpired _ _ _ (by simp) rfl

/-! ## C4: live clusters per pointer id -/

/-- Expiry never increases a `countP` over the cluster list. -/
theorem countP_clearExpired_le (p : TapState → Bool) (t : Nat) (l : List TapState) :
    (clearExpired t l).countP p ≤ l.countP p :=
  (List.filter_sublist l).countP_le p

/-- A Down update changes `countP` by at most the contribution of the
rewritten (or appended) cluster. -/
theorem downScan_countP (p : TapState → Bool) (pid : Option PointerId)
    (px py : ℚ) (t : Nat) (l : List TapState) (cnt : Nat) (l' : List TapState)
    (h : downScan pid px py t l = some (cnt, l')) :
    l'.countP p ≤ l.countP p +
      (if p ⟨pid, t, t, cnt, px, py⟩ then 1 else 0) := by
  induction l generalizing cnt l' with
  | nil => simp [downScan] at h
  | cons a l ih =>
    by_cases ha : tapMatchB a px py t
    · simp only [downScan, if_pos ha, Option.some.injEq, Prod.mk.injEq] at h
      obtain ⟨rfl, rfl⟩ := h
      simp only [List.countP_cons]
      split_ifs <;> omega
    · simp only [downScan, if_neg ha] at h
      cases hrec : downScan pid px py t l with
      | some q =>
        rw [hrec] at h
        simp only [Option.some.injEq, Prod.mk.injEq] at h
        obtain ⟨rfl, rfl⟩ := h
        have hq := ih q.1 q.2 (by rw [hrec])
        simp only [List.countP_cons] at hq ⊢
        split_ifs at hq ⊢ <;> omega
      | none =>
        rw [hrec] at h
        exact absurd h (by simp)

/-- An Up update changes `countP` by at most one, and not at all when the
rewritten cluster cannot satisfy the predicate. -/
theorem upScan_countP (p : TapState → Bool) (pid : Option PointerId)
    (t : Nat) (l : List TapState) (cnt : Nat) (l' : List TapState)
    (h : upScan pid t l = some (cnt, l')) :
    l'.countP p ≤ l.countP p + 1 ∧
    ((∀ c : TapState, c.pointer_id = pid → p { c with up_time := t } = false) →
      l'.countP p ≤ l.countP p) := by
  induction l generalizing cnt l' with
  | nil => simp [upScan] at h
  | cons a l ih =>
    by_cases ha : a.pointer_id = pid
    · simp only [upScan, if_pos ha, Option.some.injEq, Prod.mk.injEq] at h
      obtain ⟨rfl, rfl⟩ := h
      constructor
      · simp only [List.countP_cons]
        split_ifs <;> omega
      · intro hp
        have hfa : p { a with up_time := t } = false := hp a ha
        simp only [List.countP_cons, hfa, Bool.false_eq_true, if_false]
        split_ifs <;> omega
    · simp only [upScan, if_neg ha] at h
      cases hrec : upScan pid t l with
      | some q =>
        rw [hrec] at h
        simp only [Option.some.injEq, Prod.mk.injEq] at h
        obtain ⟨rfl, rfl⟩ := h
        have := ih q.1 q.2 (by rw [hrec])
        constructor
        · have h1 := this.1
          simp only [List.countP_cons] at h1 ⊢
          split_ifs at h1 ⊢ <;> omega
        · intro hp
          have h2 := this.2 hp
          simp only [List.countP_cons] at h2 ⊢
          split_ifs at h2 ⊢ <;> omega
      | none =>
        rw [hrec] at h
        exact absurd h (by simp)

/-- C4 (amended): one `attach_count` call adds at most one live cluster for
any pointer id, and none at all for pointer ids other than the event's own;
the stronger global invariant claimed by the spec (at most one live cluster
per pointer id) fails, see the counterexample. -/
theorem claim_C4_live_bound (tc : TapCounter) (e : PointerEvent)
    (pid : Option PointerId) :
    liveCount pid (tc.attach_count e).2 ≤ liveCount pid tc + 1 ∧
    (pid ≠ eventPointerId e →
      liveCount pid (tc.attach_count e).2 ≤ liveCount pid tc) := by
  cases e with
  | Down u =>
    cases hscan : downScan u.pointer.pointer_id u.state.position.x
        u.state.position.y u.state.time tc.taps with
    | some p =>
      rw [attach_count_down_some tc u p.1 p.2 hscan]
      have hle := countP_clearExpired_le (livePred pid) u.state.time p.2
      have hsc := downScan_countP (livePred pid) u.pointer.pointer_id
        u.state.position.x u.state.position.y u.state.time tc.taps p.1 p.2 hscan
      constructor
      · simp only [liveCount]
        split_ifs at hsc <;> omega
      · intro hne
        have hfalse : livePred pid
            (⟨u.pointer.pointer_id, u.state.time, u.state.time, p.1,
              u.state.position.x, u.state.position.y⟩ : TapState) = false := by
          simp only [livePred, Bool.and_eq_false_iff]
          exact Or.inl (beq_eq_false_iff_ne.2 fun h => hne (h ▸ rfl))
        rw [hfalse] at hsc
        simp only [liveCount]
        simp only [if_neg Bool.false_ne_true] at hsc
        omega
    | none =>
      rw [attach_count_down_none tc u hscan]
      have hle := countP_clearExpired_le (livePred pid) u.state.time
        (tc.taps ++ [⟨u.pointer.pointer_id, u.state.time, u.state.time, 1,
          u.state.position.x, u.state.position.y⟩])
      rw [List.countP_append] at hle
      constructor
      · simp only [liveCount]
        have : (([⟨u.pointer.pointer_id, u.state.time, u.state.time, 1,
            u.state.position.x, u.state.position.y⟩] : List TapState).countP
              (livePred pid)) ≤ 1 := by
          simp [List.countP_cons]
          split_ifs <;> omega
        omega
      · intro hne
        have hfalse : livePred pid
            (⟨u.pointer.pointer_id, u.state.time, u.state.time, 1,
              u.state.position.x, u.state.position.y⟩ : TapState) = false := by
          simp only [livePred, Bool.and_eq_false_iff]
          exact Or.inl (beq_eq_false_iff_ne.2 fun h => hne (h ▸ rfl))
        simp only [liveCount]
        simp only [List.countP_cons, List.countP_nil, hfalse] at hle
        simp only [if_neg Bool.false_ne_true] at hle
        omega
  | Up u =>
    cases hscan : upScan u.pointer.pointer_id u.state.time tc.taps with
    | some p =>
      rw [attach_count_up_some tc u p.1 p.2 hscan]
      have := upScan_countP (livePred pid) u.pointer.pointer_id u.state.time
        tc.taps p.1 p.2 hscan
      refine ⟨this.1, fun hne => this.2 fun c hc => ?_⟩
      simp only [livePred, Bool.and_eq_false_iff]
      refine Or.inl (beq_eq_false_iff_ne.2 ?_)
      simp only [eventPointerId] at hne
      rw [hc]
      exact fun hh => hne hh.symm
    | none =>
      rw [attach_count_up_none tc u hscan]
      exact ⟨Nat.le_succ_of_le le_rfl, fun _ => le_rfl⟩
  | Move u =>
    cases hfind : tc.taps.find? (movePred u.pointer.pointer_id) with
    | some c =>
      rw [attach_count_move_some tc u c hfind]
      exact ⟨Nat.le_succ_of_le le_rfl, fun _ => le_rfl⟩
    | none =>
      rw [attach_count_move_none tc u hfind]
      exact ⟨Nat.le_succ_of_le le_rfl, fun _ => le_rfl⟩
  | Cancel p =>
    have : ((TapCounter.mk (tc.taps.filter (fun c => c.pointer_id != p.pointer_id))).taps.countP
        (livePred pid)) ≤ tc.taps.countP (livePred pid) :=
      (List.filter_sublist tc.taps).countP_le _
    exact ⟨Nat.le_succ_of_le this, fun _ => this⟩
  | Enter p =>
    exact ⟨Nat.le_succ_of_le le_rfl, fun _ => le_rfl⟩
  | Leave p =>
    have : ((TapCounter.mk (tc.taps.filter (fun c => c.pointer_id != p.pointer_id))).taps.countP
        (livePred pid)) ≤ tc.taps.countP (livePred pid) :=
      (List.filter_sublist tc.taps).countP_le _
    exact ⟨Nat.le_succ_of_le this, fun _ => this⟩
  | Scroll u =>
    exact ⟨Nat.le_succ_of_le le_rfl, fun _ => le_rfl⟩

/-! ## C8: monotonic time -/

/-- Every pointer state emitted by one `reduce` call is stamped with the
nanoseconds elapsed since the (possibly just captured) first instant. -/
theorem reduce_state_times (r : WindowEventReducer) (now : Nat) (e : WindowEvent) :
    ∀ s ∈ statesOf (reduce r now e).1,
      s.time = (now - r.first_instant.getD now) % U64 := by
  cases e with
  | ModifiersChanged m => simp [reduce, statesOf]
  | KeyboardInput raw => simp [reduce, statesOf]
  | CursorEntered => simp [reduce, statesOf, pstatesOf]
  | CursorLeft => simp [reduce, statesOf, pstatesOf]
  | CursorMoved px py =>
    dsimp only [reduce, statesOf]
    refine attach_count_preserves (fun s => s.time) (fun s n => rfl) _ _ _ ?_
    intro s hs
    simp only [pstatesOf, List.append_nil, List.mem_singleton, List.mem_cons,
      List.not_mem_nil, or_false] at hs
    subst hs
    rfl
  | MouseInput pressed mb =>
    cases pressed with
    | true =>
      dsimp only [reduce, statesOf]
      refine attach_count_preserves (fun s => s.time) (fun s n => rfl) _ _ _ ?_
      intro s hs
      simp only [if_pos trivial, pstatesOf, List.mem_singleton] at hs
      subst hs
      rfl
    | false =>
      dsimp only [reduce, statesOf]
      refine attach_count_preserves (fun s => s.time) (fun s n => rfl) _ _ _ ?_
      intro s hs
      simp only [Bool.false_eq_true, if_false, pstatesOf, List.mem_singleton] at hs
      subst hs
      rfl
  | MouseWheel delta => simp [reduce, statesOf, pstatesOf]
  | Touch phase id px py force =>
    cases phase with
    | Started =>
      dsimp only [reduce, statesOf]
      refine attach_count_preserves (fun s => s.time) (fun s n => rfl) _ _ _ ?_
      intro s hs
      simp only [pstatesOf, List.mem_singleton] at hs
      subst hs
      rfl
    | Moved =>
      dsimp only [reduce, statesOf]
      refine attach_count_preserves (fun s => s.time) (fun s n => rfl) _ _ _ ?_
      intro s hs
      simp only [pstatesOf, List.append_nil, List.mem_singleton, List.mem_cons,
        List.not_mem_nil, or_false] at hs
      subst hs
      rfl
    | Ended =>
      dsimp only [reduce, statesOf]
      refine attach_count_preserves (fun s => s.time) (fun s n => rfl) _ _ _ ?_
      intro s hs
      simp only [pstatesOf, List.mem_singleton] at hs
      subst hs
      rfl
    | Cancelled =>
      dsimp only [reduce, statesOf]
      refine attach_count_preserves (fun s => s.time) (fun s n => rfl) _ _ _ ?_
      simp [pstatesOf]
  | ScaleFactorChanged s => simp [reduce, statesOf]
  | Other => simp [reduce, statesOf]

/-- The first instant is captured on the first call and never reset. -/
theorem reduce_first_instant (r : WindowEventReducer) (now : Nat) (e : WindowEvent) :
    (reduce r now e).2.first_instant = some (r.first_instant.getD now) := by
  cases e <;> rfl

/-- The stored primary pointer state is stamped with the call's time. -/
theorem reduce_primary_time (r : WindowEventReducer) (now : Nat) (e : WindowEvent) :
    (reduce r now e).2.primary_state.time =
      (now - r.first_instant.getD now) % U64 := by
  cases e <;> rfl

/-- Chaining a constant block before a sorted tail that dominates it. -/
theorem chain_const_append (b rest : List Nat) (v : Nat)
    (hb : ∀ x ∈ b, x = v) (hr : List.Chain' (· ≤ ·) rest)
    (hge : ∀ x ∈ rest, v ≤ x) : List.Chain' (· ≤ ·) (b ++ rest) := by
  induction b with
  | nil => simpa using hr
  | cons a b ih =>
    rw [List.cons_append]
    refine List.chain'_cons'.2 ⟨?_, ih fun x hx => hb x (List.mem_cons_of_mem a hx)⟩
    intro y hy
    have hav : a = v := hb a (List.mem_cons_self a b)
    rcases List.mem_append.1 (List.mem_of_mem_head? hy) with h | h
    · rw [hav, hb y (List.mem_cons_of_mem a h)]
    · rw [hav]
      exact hge y h

/-- Work horse for C8: once the first instant is fixed, a run over
non-decreasing `now`s whose offsets stay below `2^64` emits non-decreasing
time stamps, all bounded below by any lower bound of the offsets. -/
theorem c8_aux (evs : List (Nat × WindowEvent)) :
    ∀ (r : WindowEventReducer) (f lo : Nat), r.first_instant = some f →
      (evs.map Prod.fst).Pairwise (· ≤ ·) →
      (∀ n ∈ evs.map Prod.fst, n - f < U64) →
      (∀ n ∈ evs.map Prod.fst, lo ≤ n - f) →
      (List.Chain' (· ≤ ·) (emitTimes r evs) ∧ (∀ x ∈ emitTimes r evs, lo ≤ x)) ∧
      (List.Chain' (· ≤ ·) (primaryTimes r evs) ∧
        (∀ x ∈ primaryTimes r evs, lo ≤ x)) := by
  induction evs with
  | nil => simp [emitTimes, primaryTimes]
  | cons pe rest ih =>
    rintro r f lo hf hmono hbound hlow
    obtain ⟨n, e⟩ := pe
    have hnf : n - f < U64 := hbound n (by simp)
    have hA : ∀ s ∈ statesOf (reduce r n e).1, s.time = n - f := by
      intro s hs
      rw [reduce_state_times r n e s hs, hf, Option.getD_some, Nat.mod_eq_of_lt hnf]
    have hB : (reduce r n e).2.first_instant = some f := by
      rw [reduce_first_instant, hf, Option.getD_some]
    have hC : (reduce r n e).2.primary_state.time = n - f := by
      rw [reduce_primary_time, hf, Option.getD_some, Nat.mod_eq_of_lt hnf]
    have hn : ∀ m ∈ rest.map Prod.fst, n ≤ m := by
      intro m hm
      exact (List.pairwise_cons.1 hmono).1 m hm
    have ihr := ih (reduce r n e).2 f (n - f) hB
      (List.pairwise_cons.1 hmono).2
      (fun m hm => hbound m (List.mem_cons_of_mem _ hm))
      (fun m hm => Nat.sub_le_sub_right (hn m hm) f)
    have hstep : ∀ x ∈ stepTimes (reduce r n e).1, x = n - f := by
      intro x hx
      simp only [stepTimes, List.mem_map] at hx
      obtain ⟨s, hs, rfl⟩ := hx
      exact hA s hs
    have hlon : lo ≤ n - f := hlow n (by simp)
    constructor
    · constructor
      · show List.Chain' (· ≤ ·) (stepTimes (reduce r n e).1 ++
          emitTimes (reduce r n e).2 rest)
        exact chain_const_append _ _ (n - f) hstep ihr.1.1
          (fun x hx => ihr.1.2 x hx)
      · intro x hx
        rcases List.mem_append.1 hx with h | h
        · rw [hstep x h]
          exact hlon
        · exact le_trans hlon (ihr.1.2 x h)
    · constructor
      · show List.Chain' (· ≤ ·) ((reduce r n e).2.primary_state.time ::
          primaryTimes (reduce r n e).2 rest)
        refine List.chain'_cons'.2 ⟨?_, ihr.2.1⟩
        intro y hy
        rw [hC]
        exact ihr.2.2 y (List.mem_of_mem_head? hy)
      · intro x hx
        rcases List.mem_cons.1 hx with h | h
        · rw [h, hC]
          exact hlon
        · exact le_trans hlon (ihr.2.2 x h)

/-- C8: over any sequence of raw events fed to one fresh reducer instance
with non-decreasing clock reads (offsets below `2^64`), the time stamps of
the emitted pointer states, and of the stored primary pointer state, are
non-decreasing; time is measured from the lazily captured first instant. -/
theorem claim_C8_monotonic_time (evs : List (Nat × WindowEvent))
    (hmono : (evs.map Prod.fst).Chain' (· ≤ ·))
    (hbound : ∀ n ∈ evs.map Prod.fst, ∀ m ∈ evs.map Prod.fst, n - m < U64) :
    List.Chain' (· ≤ ·) (emitTimes {} evs) ∧
    List.Chain' (· ≤ ·) (primaryTimes {} evs) := by
  cases evs with
  | nil => simp [emitTimes, primaryTimes]
  | cons pe rest =>
    obtain ⟨n0, e0⟩ := pe
    have hpw : ((n0, e0).1 :: rest.map Prod.fst).Pairwise (· ≤ ·) :=
      List.chain'_iff_pairwise.1 (by simpa using hmono)
    have hn0 : ∀ m ∈ rest.map Prod.fst, n0 ≤ m := (List.pairwise_cons.1 hpw).1
    have hA : ∀ s ∈ statesOf (reduce {} n0 e0).1, s.time = 0 := by
      intro s hs
      rw [reduce_state_times {} n0 e0 s hs]
      simp
    have hB : (reduce ({} : WindowEventReducer) n0 e0).2.first_instant = some n0 := by
      rw [reduce_first_instant]
      rfl
    have hC : (reduce ({} : WindowEventReducer) n0 e0).2.primary_state.time = 0 := by
      rw [reduce_primary_time]
      simp
    have ihr := c8_aux rest (reduce {} n0 e0).2 n0 0 hB
      (List.pairwise_cons.1 hpw).2
      (fun m hm => hbound m (List.mem_cons_of_mem _ hm) n0 (by simp))
      (fun m hm => Nat.zero_le _)
    have hstep : ∀ x ∈ stepTimes (reduce {} n0 e0).1, x = 0 := by
      intro x hx
      simp only [stepTimes, List.mem_map] at hx
      obtain ⟨s, hs, rfl⟩ := hx
      exact hA s hs
    constructor
    · show List.Chain' (· ≤ ·) (stepTimes (reduce {} n0 e0).1 ++
        emitTimes (reduce {} n0 e0).2 rest)
      exact chain_const_append _ _ 0 hstep ihr.1.1 (fun x _ => Nat.zero_le x)
    · show List.Chain' (· ≤ ·) ((reduce ({} : WindowEventReducer) n0 e0).2.primary_state.time ::
        primaryTimes (reduce {} n0 e0).2 rest)
      refine List.chain'_cons'.2 ⟨?_, ihr.2.1⟩
      intro y hy
      rw [hC]
      exact Nat.zero_le y

/-! ## C3: cursor-left does not reach the tap counter's Leave cleanup -/

/-- A cluster recorded for the primary mouse pointer. -/
def c3_cluster : TapState := ⟨some PointerId.PRIMARY, 0, 0, 1, 0, 0⟩

/-- A reducer state holding that cluster, with the first instant captured. -/
def c3_reducer : WindowEventReducer :=
  { counter := TapCounter.mk [c3_cluster], first_instant := some 0 }

/-- C3 (divergence witness): on a cursor-left raw event `reduce` does emit
a pointer Leave for the primary pointer, but it never calls the tap
counter — the cluster stored for the primary pointer id survives, so the
claimed cluster cleanup does not happen (the Leave branch of `attach_count`
is unreachable from `reduce`). -/
theorem claim_C3_no_cleanup :
    (reduce c3_reducer 5 .CursorLeft).1 = some (.Pointer (.Leave PRIMARY_MOUSE)) ∧
    (reduce c3_reducer 5 .CursorLeft).2.counter.taps = [c3_cluster] ∧
    c3_cluster.pointer_id = PRIMARY_MOUSE.pointer_id :=
  ⟨rfl, rfl, rfl⟩

/-! ## C7: the `u8` tap count overflows after 256 matching Downs -/

/-- The button update of a Down at the origin at time 0 (any pointer id). -/
def c7_u : PointerButtonUpdate :=
  ⟨⟨some 1, none, .Touch⟩, none, { time := 0, position := ⟨0, 0⟩ }⟩

/-- `n` consecutive such Downs fed to one fresh `TapCounter`. -/
def c7_iter : Nat → TapCounter
  | 0 => {}
  | n + 1 => ((c7_iter n).attach_count (.Down c7_u)).2

/-- The repeated Down always matches the single stored cluster. -/
theorem c7_match (c : Nat) :
    tapMatchB ⟨some 1, 0, 0, c, 0, 0⟩ 0 0 0 = true := by
  simp only [tapMatchB, Bool.and_eq_true, decide_eq_true_eq]
  refine ⟨by norm_num, ?_⟩
  simp [wadd64, U64]

/-- One step of the repeated Down on the single-cluster state. -/
theorem c7_step (c : Nat) :
    ((TapCounter.mk [⟨some 1, 0, 0, c, 0, 0⟩]).attach_count (.Down c7_u)).2 =
      TapCounter.mk [⟨some 1, 0, 0, (c + 1) % 256, 0, 0⟩] := by
  have hscan : downScan (some 1) 0 0 0 [⟨some 1, 0, 0, c, 0, 0⟩] =
      some ((c + 1) % 256, [⟨some 1, 0, 0, (c + 1) % 256, 0, 0⟩]) := by
    simp [downScan, c7_match c]
  rw [attach_count_down_some (TapCounter.mk [⟨some 1, 0, 0, c, 0, 0⟩]) c7_u
    ((c + 1) % 256) _ hscan]
  simp [clearExpired, c7_u]

/-- The very first Down creates the cluster with count 1. -/
theorem c7_first :
    ((TapCounter.mk []).attach_count (.Down c7_u)).2 =
      TapCounter.mk [⟨some 1, 0, 0, 1, 0, 0⟩] := by
  rw [attach_count_down_none (TapCounter.mk []) c7_u rfl]
  simp [clearExpired, c7_u]

/-- After `n + 1` Downs the stored count is `(n + 1) % 256`: the `u8`
counter wraps. -/
theorem c7_iter_count (n : Nat) :
    c7_iter (n + 1) = TapCounter.mk [⟨some 1, 0, 0, (n + 1) % 256, 0, 0⟩] := by
  induction n with
  | zero =>
    show ((c7_iter 0).attach_count (.Down c7_u)).2 = _
    rw [show c7_iter 0 = TapCounter.mk [] from rfl, c7_first]
  | succ k ih =>
    show ((c7_iter (k + 1)).attach_count (.Down c7_u)).2 = _
    rw [ih, c7_step]
    have : ((k + 1) % 256 + 1) % 256 = (k + 1 + 1) % 256 := by omega
    rw [this]

/-- C7 (divergence witness): after 255 matching Downs the stored cluster
holds count 255 — a reachable state — and the 256th matching Down computes
`count + 1`, which no longer fits in a `u8`: in release builds the stored
count wraps to 0 instead of being incremented (in debug builds the addition
panics), refuting the no-overflow claim. -/
theorem claim_C7_count_overflow :
    (c7_iter 255).taps.map (fun c => c.count) = [255] ∧
    (c7_iter 256).taps.map (fun c => c.count) = [0] := by
  have h255 := c7_iter_count 254
  have h256 := c7_iter_count 255
  norm_num at h255 h256
  rw [h255, h256]
  simp

/-! ## C4 counterexample: two live clusters with the same pointer id -/

/-- First Down of pointer 7 at the origin at time 0. -/
def c4_u1 : PointerButtonUpdate :=
  ⟨⟨some 7, none, .Touch⟩, none, { time := 0, position := ⟨0, 0⟩ }⟩

/-- Second Down of the same pointer far away at time 1, with no Up between. -/
def c4_u2 : PointerButtonUpdate :=
  ⟨⟨some 7, none, .Touch⟩, none, { time := 1, position := ⟨100, 100⟩ }⟩

/-- C4 (counterexample): two Downs of one pointer id at distant positions,
with no intervening Up/Cancel/Leave, leave two clusters that are both live
(`down_time = up_time`) for that pointer id — the claimed at-most-one-live-
cluster-per-pointer-id invariant fails in a reachable state. -/
theorem claim_C4_counterexample :
    liveCount (some 7)
      (((TapCounter.mk []).attach_count (.Down c4_u1)).2.attach_count
        (.Down c4_u2)).2 = 2 := by
  have h1 : ((TapCounter.mk []).attach_count (.Down c4_u1)).2 =
      TapCounter.mk [⟨some 7, 0, 0, 1, 0, 0⟩] := by
    rw [attach_count_down_none (TapCounter.mk []) c4_u1 rfl]
    simp [clearExpired, c4_u1]
  have hm2 : tapMatchB ⟨some 7, 0, 0, 1, 0, 0⟩ (100 : ℚ) 100 1 = false := by
    simp only [tapMatchB, Bool.and_eq_false_iff]
    left
    rw [decide_eq_false_iff_not]
    norm_num
  have hscan2 : downScan (some 7) 100 100 1 [⟨some 7, 0, 0, 1, 0, 0⟩] = none := by
    simp [downScan, hm2]
  rw [h1, attach_count_down_none (TapCounter.mk [⟨some 7, 0, 0, 1, 0, 0⟩]) c4_u2 hscan2]
  simp [liveCount, livePred, clearExpired, c4_u2, wadd64, U64]

/-! ## Witnesses: the conditional claim theorems instantiated on concrete
inputs, with every hypothesis discharged. -/

/-- A cluster list whose single cluster was released at time 10 with count 2. -/
def c1_tc : TapCounter := TapCounter.mk [⟨some 1, 0, 10, 2, 0, 0⟩]

/-- A Down of pointer 2 at `(1, 1)` at time 100: within 4 units and 500ms. -/
def c1_u : PointerButtonUpdate :=
  ⟨⟨some 2, none, .Mouse⟩, some .Primary, { time := 100, position := ⟨1, 1⟩ }⟩

/-- Witness for C1: the matching Down bumps the cluster to count 3,
overwrites it with the event's data, and stamps the emitted Down. -/
theorem claim_C1_down_cluster_witness :
    (c1_tc.attach_count (.Down c1_u)).1 =
        .Down { c1_u with state := { c1_u.state with count := 3 } } ∧
    (c1_tc.attach_count (.Down c1_u)).2.taps =
        clearExpired c1_u.state.time
          (c1_tc.taps.set 0 ⟨some 2, 100, 100, 3, 1, 1⟩) ∧
    (⟨some 2, 100, 100, 3, 1, 1⟩ : TapState) ∈
        (c1_tc.attach_count (.Down c1_u)).2.taps :=
  (claim_C1_down_cluster c1_tc c1_u (by decide)).1 0 ⟨some 1, 0, 10, 2, 0, 0⟩
    rfl
    (by constructor
        · show ((0 : ℚ) - 1) * ((0 : ℚ) - 1) + ((0 : ℚ) - 1) * ((0 : ℚ) - 1) < 16
          norm_num
        · show (100 : Nat) < 10 + 500000000
          norm_num)
    (fun j hj => absurd hj (Nat.not_lt_zero j))
    (by decide)

/-- Witness for C2: a fully released but unexpired cluster (and the general
never-expire-a-live-cluster fact applied to a pressed cluster). -/
theorem claim_C2_expiry_witness :
    (⟨some 1, 5, 5, 2, 0, 0⟩ : TapState) ∈
      clearExpired 999999999 [⟨some 1, 5, 5, 2, 0, 0⟩] :=
  (claim_C2_expiry (TapCounter.mk []) ⟨⟨some 1, none, .Mouse⟩, none, {}⟩).2
    999999999 [⟨some 1, 5, 5, 2, 0, 0⟩] ⟨some 1, 5, 5, 2, 0, 0⟩ (by simp) rfl

/-- Witness for C4 (amended): a Down of pointer 7 adds no live cluster for
the unrelated pointer id 3. -/
theorem claim_C4_live_bound_witness :
    liveCount (some 3) ((TapCounter.mk []).attach_count
        (.Down ⟨⟨some 7, none, .Touch⟩, none, {}⟩)).2 ≤
      liveCount (some 3) (TapCounter.mk []) :=
  (claim_C4_live_bound (TapCounter.mk [])
    (.Down ⟨⟨some 7, none, .Touch⟩, none, {}⟩) (some 3)).2 (by decide)

/-- A cluster list with an open press session of pointer 1 with count 3. -/
def c5_tc : TapCounter := TapCounter.mk [⟨some 1, 5, 5, 3, 0, 0⟩]

/-- A Move of the same pointer 1. -/
def c5_u : PointerUpdate := ⟨⟨some 1, none, .Mouse⟩, {}, [], []⟩

/-- Witness for C5: the Move inherits the open session's count 3. -/
theorem claim_C5_move_count_witness :
    c5_tc.attach_count (.Move c5_u) =
      (.Move { c5_u with
          current := { c5_u.current with count := 3 },
          coalesced := c5_u.coalesced.map (fun s => { s with count := 3 }),
          predicted := c5_u.predicted.map (fun s => { s with count := 3 }) },
       c5_tc) :=
  ((claim_C5_move_count c5_tc c5_u).1 ⟨some 1, 5, 5, 3, 0, 0⟩ rfl).2.2

/-- The state emitted for a Started touch at `(10, 10)` with calibrated
force `4/5` (the spec's `0.8`), as built by `reduce` on a fresh reducer. -/
def c6_state : PointerState :=
  { time := 0, position := ⟨10 / 1, 10 / 1⟩, modifiers := {}, buttons := [],
    pressure := 4 / 5 * (1 / 2), count := 1 }

/-- Witness for C6: Started with calibrated force `0.8` emits pressure
`0.8 × 0.5 = 0.4`. -/
theorem claim_C6_touch_pressure_witness :
    c6_state.pressure = 4 / 5 * (1 / 2) := by
  have hmem : c6_state ∈ statesOf
      (reduce {} 0 (.Touch .Started 0 10 10 (some (.Calibrated (4 / 5))))).1 :=
    List.mem_singleton.2 rfl
  have h := claim_C6_touch_pressure {} 0 .Started 0 10 10
    (some (.Calibrated (4 / 5))) c6_state hmem
  simpa using h

/-- Two timed mouse events with non-decreasing clock reads. -/
def c8_events : List (Nat × WindowEvent) :=
  [(3, .MouseInput true .Left), (7, .MouseInput false .Left)]

/-- Witness for C8: the run over the two events emits non-decreasing times. -/
theorem claim_C8_monotonic_time_witness :
    List.Chain' (· ≤ ·) (emitTimes {} c8_events) ∧
    List.Chain' (· ≤ ·) (primaryTimes {} c8_events) :=
  claim_C8_monotonic_time c8_events (by simp [c8_events]) (by decide)

end UIEvents
